import Mathlib

/-!
Verification of the NVO lab scripts against their specification.

The development shallowly embeds the two polling scripts:

* `Labs/Lab 2/scale.py` — CPU-threshold autoscaler: SSH metric fetch
  (`get_remote_cpu_percent`), CSV registry (`read_instance_registry`,
  `append_instance_registry`), and the poll/evaluate/act loop
  (`autoscale_controller`, modelled one iteration at a time by
  `autoscale_step` and iterated by `scaleRun`).
* `Labs/Lab 4/obj5.4.py` with `Labs/Lab 4/get_metrics.py` — CloudWatch
  monitoring loop (`fetch_metric`, `get_cpu_util`, `monitor_body`,
  `monitor_step`).

Files are modelled as lists of characters, registry rows as lists of
fields, rationals stand for Python floats (all values involved are exact
decimals), and `Option` return types model exceptions: `none` is an
exception propagating to the caller.
-/

attribute [local semireducible] Rat.sub Rat.add Rat.mul Rat.inv

/-- A character string, as stored in a file or field. -/
abbrev Chars := List Char

/-! ## Configuration constants of scale.py -/

/-- `SSH_USER = "cirros"` in scale.py. -/
def SSH_USER : Chars := "cirros".data

/-- `SSH_PASS = "gocubsgo"` in scale.py. -/
def SSH_PASS : Chars := "gocubsgo".data

/-- `MAX_INSTANCES = 4` in scale.py. -/
def MAX_INSTANCES : Nat := 4

/-- `CPU_THRESHOLD = 10` (percent) in scale.py. -/
def CPU_THRESHOLD : ℚ := 10

/-- `POLL_INTERVAL = 5` (seconds) in scale.py; it doubles as the cooldown
interval in the `time.time() - last_scale_time >= POLL_INTERVAL` guard. -/
def POLL_INTERVAL : ℚ := 5

/-! ## Generic character-splitting, modelling Python line and CSV field
splitting on the character level. -/

/-- Split a character list on a separator character; always returns at
least one (possibly empty) chunk, like Python `str.split(sep)`. -/
def splitOnChar (c : Char) : Chars → List Chars
  | [] => [[]]
  | x :: xs =>
    if x = c then [] :: splitOnChar c xs
    else
      match splitOnChar c xs with
      | [] => [[x]]
      | r :: rs => (x :: r) :: rs




/-! ## CSV instance registry (scale.py lines 70-114)

`read_instance_registry` models `csv.DictReader` over the file:
the first physical line provides the field names, blank records are
skipped, every other line is one row of comma-separated fields.
`append_instance_registry` models the `a+` append: an existence probe by
opening for read, a `"\n"` written first whenever the file is non-empty,
the header written only when the file did not exist, then the row;
`csv.DictWriter` terminates records with `"\r\n"`. -/

/-- The header fields `name,ip,username,password` without terminator. -/
def headerBody : Chars := "name,ip,username,password".data

/-- The `"\r\n"` record terminator used by `csv` writers. -/
def CRLF : Chars := ['\r', '\n']

/-- One data record without terminator: the four comma-separated fields
written by `writer.writerow` in `append_instance_registry`. -/
def rowBody (name ip : Chars) : Chars :=
  name ++ ',' :: (ip ++ ',' :: (SSH_USER ++ ',' :: SSH_PASS))

/-- One data record as written to the file, `"\r\n"`-terminated. -/
def rowChars (name ip : Chars) : Chars := rowBody name ip ++ CRLF

/-- The header record as written by `writer.writeheader()`. -/
def headerChars : Chars := headerBody ++ CRLF

/-- `append_instance_registry(name, ip)` acting on the registry file
(`none` = file does not exist).  Returns the new file content. -/
def append_instance_registry (file : Option Chars) (name ip : Chars) : Chars :=
  let base := file.getD []
  let withSep := if 0 < base.length then base ++ ['\n'] else base
  let withHdr := if file.isSome then withSep else withSep ++ headerChars
  withHdr ++ rowChars name ip

/-- Remove one trailing carriage return, modelling the universal-newline
translation applied when Python reads a `"\r\n"`-terminated line in text
mode (the files written here never contain a lone `'\r'`). -/
def stripCR (l : Chars) : Chars :=
  if l.getLast? = some '\r' then l.dropLast else l

/-- The physical lines of a file as Python text-mode iteration yields
them: split on `'\n'`, with the phantom empty chunk after a final
newline discarded, and the line terminators stripped. -/
def linesOf (f : Chars) : List Chars :=
  (if (splitOnChar '\n' f).getLast? = some [] then (splitOnChar '\n' f).dropLast
    else splitOnChar '\n' f).map stripCR

/-- `read_instance_registry()` (scale.py lines 70-82): missing file means
an empty result; otherwise `csv.DictReader` consumes the first line as
field names, skips blank records and splits the rest on commas. -/
def read_instance_registry (file : Option Chars) : List (List Chars) :=
  match file with
  | none => []
  | some f =>
    match linesOf f with
    | [] => []
    | _ :: rest => (rest.filter (fun l => !l.isEmpty)).map (splitOnChar ',')

/-- N successive `append_instance_registry` calls, left to right. -/
def appendRegistryAll (ps : List (Chars × Chars)) (file : Option Chars) :
    Option Chars :=
  ps.foldl (fun f p => some (append_instance_registry f p.1 p.2)) file

/-- A field is clean when it contains none of the characters that the
`csv` writer would quote or that alter the line structure; the names
(`auto_vm_<index>`) and dotted IP addresses written by the provisioner
are clean. -/
def CleanField (s : Chars) : Prop :=
  '\n' ∉ s ∧ '\r' ∉ s ∧ ',' ∉ s ∧ '"' ∉ s

instance (s : Chars) : Decidable (CleanField s) := by
  unfold CleanField
  infer_instance

/-! ## SSH metric fetch (scale.py lines 41-64)

`get_remote_cpu_percent` runs `top -bn1 | grep '^CPU:'` remotely and
applies `re.search(r"(\d+)% idle", output)`.  The regular expression is
embedded exactly: the leftmost position where a digit run immediately
followed by `"% idle"` starts wins, and the captured group is that
maximal digit run (a shorter greedy backtrack is impossible because the
next character would again be a digit, not `'%'`).  Any SSH exception
and any failed parse return `0.0`. -/

/-- Outcome of the SSH interaction: either some exception was raised
(connection, authentication, transport), or the command output text. -/
inductive FetchOutcome where
  | sshError : FetchOutcome
  | output : Chars → FetchOutcome
deriving DecidableEq

/-- Maximal leading digit run of a string, with the remainder. -/
def digitRun : Chars → Chars × Chars
  | [] => ([], [])
  | c :: cs =>
    if c.isDigit then
      let r := digitRun cs
      (c :: r.1, r.2)
    else ([], c :: cs)

/-- The literal `"% idle"` that must follow the captured digits. -/
def idleSuffix : Chars := "% idle".data

/-- Attempt to match `(\d+)% idle` anchored at the start of `s`,
returning the captured digit group. -/
def matchIdleAt (s : Chars) : Option Chars :=
  match s with
  | [] => none
  | c :: _ =>
    if c.isDigit then
      let r := digitRun s
      if idleSuffix.isPrefixOf r.2 then some r.1 else none
    else none

/-- `re.search(r"(\d+)% idle", output)`: leftmost match wins. -/
def searchIdle : Chars → Option Chars
  | [] => none
  | c :: cs =>
    match matchIdleAt (c :: cs) with
    | some r => some r
    | none => searchIdle cs

/-- Numeric value of a digit string, as `float(match.group(1))` reads it. -/
def digitsVal (s : Chars) : Nat :=
  s.foldl (fun a c => a * 10 + (c.toNat - '0'.toNat)) 0

/-- `get_remote_cpu_percent` (scale.py lines 41-64): `0.0` on any SSH
exception, `0.0` when the idle pattern is absent, otherwise
`100.0 - idle`. -/
def get_remote_cpu_percent (o : FetchOutcome) : ℚ :=
  match o with
  | .sshError => 0
  | .output s =>
    match searchIdle s with
    | none => 0
    | some d => 100 - (digitsVal d : ℚ)

/-! ## CloudWatch metric fetch (get_metrics.py lines 53-97)

`fetch_metric` asks CloudWatch for datapoints and returns `"N/A"` when
none come back, else the latest datapoint's average rounded to two
decimals; `get_cpu_util` converts `"N/A"` to `0.0` and otherwise passes
the value through.  Neither function catches exceptions, so a failing
CloudWatch call propagates to the caller (`none` below). -/

/-- Result of the `get_metric_statistics` call: `raised` when the boto3
call throws (transport or authentication failure), otherwise the list of
datapoints as (timestamp, average) pairs. -/
inductive CwResult where
  | raised : CwResult
  | ok : List (ℤ × ℚ) → CwResult

/-- The three values `fetch_metric` can produce for its caller. -/
inductive MetricVal where
  | raised : MetricVal
  | na : MetricVal
  | val : ℚ → MetricVal
deriving DecidableEq

/-- Floor of a rational as used by the rounding model. -/
def qfloor (q : ℚ) : ℤ := Int.fdiv q.num q.den

/-- Python `round(x, 2)`: nearest multiple of `1/100`, ties to even. -/
def pyRound2 (q : ℚ) : ℚ :=
  let x := q * 100
  let f := qfloor x
  let n : ℤ :=
    if x - f = 1 / 2 then (if 2 ∣ f then f else f + 1)
    else if x - f < 1 / 2 then f else f + 1
  (n : ℚ) / 100

/-- `max(datapoints, key=lambda x: x["Timestamp"])`: the latest
datapoint; Python `max` keeps the earlier element on ties. -/
def latestDp (d : ℤ × ℚ) (ds : List (ℤ × ℚ)) : ℤ × ℚ :=
  ds.foldl (fun acc e => if e.1 > acc.1 then e else acc) d

/-- `fetch_metric` (get_metrics.py lines 53-75). -/
def fetch_metric (r : CwResult) : MetricVal :=
  match r with
  | .raised => .raised
  | .ok [] => .na
  | .ok (d :: ds) => .val (pyRound2 (latestDp d ds).2)

/-- `get_cpu_util` (get_metrics.py lines 78-97): `0.0` replaces `"N/A"`,
exceptions propagate (`none`). -/
def get_cpu_util (r : CwResult) : Option ℚ :=
  match fetch_metric r with
  | .raised => none
  | .na => some 0
  | .val v => some v

/-! ## Autoscale loop (scale.py lines 157-203)

`autoscale_controller` is an infinite `while True` loop.  One iteration
is modelled by `autoscale_step`; `scaleRun` chains iterations.  The
iteration reads the registry, skips everything at the cap, scans
instances in registry order breaking at the first CPU value above the
threshold, and, when a breach coincides with an elapsed cooldown, calls
the provisioner and appends the result.  The loop body contains no
`try`, so a provisioning or registry-append exception propagates out of
the controller: `autoscale_step` returns `none` in that case. -/

/-- The loop-carried state: `last_scale_time` and the registry file. -/
structure LoopState where
  lastScaleTime : ℚ
  file : Option Chars
deriving DecidableEq

/-- The external world during one iteration: the SSH outcome of the
`i`-th metric fetch, the two `time.time()` readings (at the cooldown
check and after provisioning), the provisioner's result for a given
index (`none` = it raised), and whether the registry append raises. -/
structure ScaleEnv where
  fetchOut : Nat → FetchOutcome
  now : ℚ
  now2 : ℚ
  provision : Nat → Option (Chars × Chars)
  appendFails : Bool

/-- What one loop iteration did: the new state, the indices of the
instances whose metric was fetched (in order), the per-cycle breach
flag, and whether a provisioning call happened. -/
structure StepResult where
  state : LoopState
  fetched : List Nat
  breach : Bool
  provisioned : Bool
deriving DecidableEq

/-- The `for inst in instances` scan (scale.py lines 173-189): fetch
each instance's CPU in order starting at index `k`, stop at the first
value strictly above the threshold.  Returns the breach flag and the
indices fetched. -/
def scanLoop (cpu : Nat → ℚ) (thr : ℚ) : List α → Nat → Bool × List Nat
  | [], _ => (false, [])
  | _ :: rest, k =>
    if cpu k > thr then (true, [k])
    else
      let r := scanLoop cpu thr rest (k + 1)
      (r.1, k :: r.2)

/-- One iteration of `autoscale_controller` (scale.py lines 162-203).
`none` models an exception escaping the loop body. -/
def autoscale_step (st : LoopState) (env : ScaleEnv) : Option StepResult :=
  let instances := read_instance_registry st.file
  let instance_count := instances.length
  if instance_count ≥ MAX_INSTANCES then
    some ⟨st, [], false, false⟩
  else
    let scan := scanLoop (fun i => get_remote_cpu_percent (env.fetchOut i))
      CPU_THRESHOLD instances 0
    if scan.1 ∧ env.now - st.lastScaleTime ≥ POLL_INTERVAL then
      match env.provision (instance_count + 1) with
      | none => none
      | some (name, ip) =>
        if env.appendFails then none
        else
          some ⟨⟨env.now2, some (append_instance_registry st.file name ip)⟩,
            scan.2, true, true⟩
    else some ⟨st, scan.2, scan.1, false⟩

/-- `k` consecutive iterations of the autoscale loop; `none` as soon as
one iteration lets an exception escape. -/
def scaleRun (envs : Nat → ScaleEnv) : Nat → LoopState → Option LoopState
  | 0, st => some st
  | k + 1, st =>
    match autoscale_step st (envs 0) with
    | none => none
    | some r => scaleRun (fun i => envs (i + 1)) k r.state

/-! ## Monitoring loop (obj5.4.py lines 66-125)

`main` loops forever; the whole cycle body sits inside `try/except`, so
any exception is caught, logged and followed by a sleep.  With two
running instances it fetches each CPU via `get_cpu_util`; at the first
value at or above the threshold it stops both instances, creates exactly
two replacements (`MinCount=2, MaxCount=2`), sends the SNS alert and
returns from `main`. -/

/-- Externally visible actions of one monitoring cycle, in order. -/
inductive MEv where
  | fetch : Nat → MEv
  | stop : Nat → MEv
  | create : Nat → MEv
  | notify : MEv
deriving DecidableEq

/-- The external world of one monitoring cycle: the running instance
ids, each instance's CloudWatch response, and whether the stop, create
and publish calls succeed (a `false` models a raised exception). -/
structure MonEnv where
  running : List Nat
  cwResp : Nat → CwResult
  stopOk : Bool
  createOk : Bool
  notifyOk : Bool
  threshold : ℚ

/-- The `for inst in instances` scan of obj5.4.py (lines 80-119) over
the remaining instances, `all` being both monitored instances (the stop
loop runs over all of them).  Returns the events and whether `main`
returned; `none` models an exception reaching the `except` handler. -/
def scanMon (env : MonEnv) (all : List Nat) : List Nat → Option (List MEv × Bool)
  | [] => some ([], false)
  | i :: rest =>
    match get_cpu_util (env.cwResp i) with
    | none => none
    | some cpu =>
      if cpu ≥ env.threshold then
        if env.stopOk then
          if env.createOk then
            if env.notifyOk then
              some (MEv.fetch i :: (all.map MEv.stop ++ [MEv.create 2, MEv.notify]),
                true)
            else none
          else none
        else none
      else (scanMon env all rest).map (fun r => (MEv.fetch i :: r.1, r.2))

/-- The body of one monitoring cycle before exception handling:
take the first two running instances, skip the cycle when fewer than two
exist, otherwise scan them. -/
def monitor_body (env : MonEnv) : Option (List MEv × Bool) :=
  let instances := env.running.take 2
  if instances.length < 2 then some ([], false)
  else scanMon env instances instances

/-- One full monitoring cycle including the `except` handler: a raised
exception is caught and the loop just sleeps and retries. -/
def monitor_step (env : MonEnv) : List MEv × Bool :=
  (monitor_body env).getD ([], false)

/-! ## Expected registry file shapes

`regFile` is the file content that `N ≥ 1` appends starting from no
file produce: the header record, the first row, then each further row
preceded by the separating `"\n"` that `append_instance_registry`
writes into a non-empty file. -/

/-- Rows two onward: each preceded by the extra `"\n"`. -/
def regRowsTail : List (Chars × Chars) → Chars
  | [] => []
  | p :: rest => '\n' :: (rowChars p.1 p.2 ++ regRowsTail rest)

/-- The whole registry file after appending the given instances in
order, starting from no file. -/
def regFile : List (Chars × Chars) → Chars
  | [] => headerChars
  | p :: rest => headerChars ++ rowChars p.1 p.2 ++ regRowsTail rest

/-- Expected physical lines contributed by rows two onward: a blank
line (from the separating `"\n"`) before each data line. -/
def regLinesTail : List (Chars × Chars) → List Chars
  | [] => []
  | p :: rest => [] :: rowBody p.1 p.2 :: regLinesTail rest

/-- Raw `splitOnChar '\n'` chunks of `regRowsTail`, before the final
phantom empty chunk is discarded and carriage returns stripped. -/
def rawTail : List (Chars × Chars) → List Chars
  | [] => [[]]
  | p :: rest => [] :: (rowBody p.1 p.2 ++ ['\r']) :: rawTail rest

/-! ## Concrete fixtures used by the witnesses -/

/-- A registry file holding one instance row. -/
def fileOne : Chars := "name,ip,username,password\r\nv,1,cirros,gocubsgo\r\n".data

/-- A registry file holding four instance rows (the cap). -/
def fileFour : Chars :=
  "name,ip,username,password\nv,1,c,g\nw,2,c,g\nx,3,c,g\ny,4,c,g\n".data

/-- Loop state with one registered instance and cooldown long expired. -/
def stOne : LoopState := ⟨0, some fileOne⟩

/-- An environment whose instance reports 100 percent CPU (idle 0) and
whose provisioner works. -/
def envBusyOk : ScaleEnv :=
  ⟨fun _ => FetchOutcome.output "CPU:  0% idle".data, 100, 100,
    fun _ => some ("w".data, "2".data), false⟩

/-- The same breaching environment observed three seconds later, within
the cooldown window. -/
def envBusyLater : ScaleEnv :=
  ⟨fun _ => FetchOutcome.output "CPU:  0% idle".data, 103, 103,
    fun _ => some ("x".data, "3".data), false⟩

/-- A breaching environment whose provisioner raises. -/
def envProvisionRaise : ScaleEnv :=
  ⟨fun _ => FetchOutcome.output "CPU:  0% idle".data, 100, 100,
    fun _ => none, false⟩

/-- An idle environment: every fetch fails over SSH. -/
def envAllSshFail : ScaleEnv :=
  ⟨fun _ => FetchOutcome.sshError, 0, 0, fun _ => none, false⟩

/-- Result of the breaching step from `stOne` under `envBusyOk`. -/
def stepBusy : StepResult :=
  (autoscale_step stOne envBusyOk).getD ⟨stOne, [], false, false⟩

/-- Result of the follow-up step three seconds later. -/
def stepBusyLater : StepResult :=
  (autoscale_step stepBusy.state envBusyLater).getD ⟨stOne, [], false, false⟩

/-- A monitoring environment whose second instance breaches. -/
def monEnvBreach : MonEnv :=
  ⟨[7, 9], fun i => if i = 7 then CwResult.ok [(0, 3)] else CwResult.ok [(0, 50)],
    true, true, true, 10⟩

/-- A registry file holding two instance rows, as two appends produce it. -/
def fileTwo : Chars :=
  "name,ip,username,password\r\nv,1,cirros,gocubsgo\r\n\nw,2,cirros,gocubsgo\r\n".data

/-- An environment where only the second instance is busy: the first
reports 5 percent CPU (95 idle), the second 100 percent (0 idle). -/
def envSecondBusy : ScaleEnv :=
  ⟨fun i => if i = 0 then FetchOutcome.output "CPU: 95% idle".data
    else FetchOutcome.output "CPU:  0% idle".data, 0, 0, fun _ => none, false⟩

/-- A monitoring environment whose CloudWatch client raises. -/
def monEnvRaise : MonEnv :=
  ⟨[7, 9], fun _ => CwResult.raised, true, true, true, 10⟩

/-- Two instances as the provisioner would register them. -/
def instsTwo : List (Chars × Chars) :=
  [("auto_vm_1".data, "10.0.0.5".data), ("auto_vm_2".data, "10.0.0.6".data)]

theorem splitOnChar_ne_nil (c : Char) (s : Chars) : splitOnChar c s ≠ [] := by
  induction s with
  | nil => simp [splitOnChar]
  | cons x xs ih =>
    simp only [splitOnChar]
    split
    · simp
    · split
      · simp
      · simp

theorem splitOnChar_no_sep (c : Char) (a : Chars) (h : c ∉ a) :
    splitOnChar c a = [a] := by
  induction a with
  | nil => rfl
  | cons x xs ih =>
    simp only [List.mem_cons, not_or] at h
    rw [splitOnChar, if_neg (fun hx => h.1 hx.symm), ih h.2]

theorem splitOnChar_append_sep (c : Char) (a rest : Chars) (h : c ∉ a) :
    splitOnChar c (a ++ c :: rest) = a :: splitOnChar c rest := by
  induction a with
  | nil => simp [splitOnChar]
  | cons x xs ih =>
    simp only [List.mem_cons, not_or] at h
    rw [List.cons_append, splitOnChar, if_neg (fun hx => h.1 hx.symm), ih h.2]

/-! ## Scan-loop lemmas -/

theorem scanLoop_no_breach {α : Type} (cpu : Nat → ℚ) (thr : ℚ)
    (h : ∀ i, ¬ cpu i > thr) :
    ∀ (l : List α) (k : Nat), (scanLoop cpu thr l k).1 = false := by
  intro l
  induction l with
  | nil => intro k; rfl
  | cons x xs ih =>
    intro k
    simp only [scanLoop, if_neg (h k)]
    exact ih (k + 1)

theorem range_map_add (k n : Nat) :
    (List.range (n + 1)).map (fun i => k + i) =
      k :: (List.range n).map (fun i => (k + 1) + i) := by
  rw [List.range_succ_eq_map]
  simp only [List.map_cons, List.map_map, Nat.add_zero]
  refine congrArg _ (List.map_congr_left ?_)
  intro i _
  simp only [Function.comp_apply]
  omega

theorem scanLoop_first_breach {α : Type} (cpu : Nat → ℚ) (thr : ℚ) :
    ∀ (l : List α) (k j : Nat), j < l.length →
      (∀ i, i < j → ¬ cpu (k + i) > thr) → cpu (k + j) > thr →
      scanLoop cpu thr l k = (true, (List.range (j + 1)).map (fun i => k + i)) := by
  intro l
  induction l with
  | nil =>
    intro k j hj
    exact absurd hj (by simp)
  | cons x xs ih =>
    intro k j hj hlt hbr
    match j with
    | 0 =>
      simp only [Nat.add_zero] at hbr
      simp only [scanLoop, if_pos hbr]
      simp [List.range_succ]
    | j' + 1 =>
      have h0 : ¬ cpu k > thr := by
        have := hlt 0 (Nat.succ_pos j')
        simpa using this
      have hshift : ∀ i, i < j' → ¬ cpu (k + 1 + i) > thr := by
        intro i hi
        have e : k + 1 + i = k + (i + 1) := by omega
        rw [e]
        exact hlt (i + 1) (by omega)
      have hbr' : cpu (k + 1 + j') > thr := by
        have e : k + 1 + j' = k + (j' + 1) := by omega
        rw [e]; exact hbr
      simp only [scanLoop, if_neg h0]
      rw [ih (k + 1) j' (by simpa using hj) hshift hbr']
      rw [range_map_add k (j' + 1)]

/-! ## Analysis of one autoscale iteration -/

theorem autoscale_step_cap (st : LoopState) (env : ScaleEnv)
    (hcap : (read_instance_registry st.file).length ≥ MAX_INSTANCES) :
    autoscale_step st env = some ⟨st, [], false, false⟩ := by
  simp only [autoscale_step, if_pos hcap]

theorem autoscale_step_provisioned_time (st : LoopState) (env : ScaleEnv)
    (r : StepResult) (h : autoscale_step st env = some r)
    (hp : r.provisioned = true) : r.state.lastScaleTime = env.now2 := by
  simp only [autoscale_step] at h
  split at h
  · injection h with h'
    rw [← h'] at hp
    exact absurd hp (by simp)
  · split at h
    · split at h
      · exact absurd h (by simp)
      · split at h
        · exact absurd h (by simp)
        · injection h with h'
          rw [← h']
    · injection h with h'
      rw [← h'] at hp
      exact absurd hp (by simp)

theorem autoscale_step_stable_state (st : LoopState) (env : ScaleEnv)
    (r : StepResult) (h : autoscale_step st env = some r)
    (hp : r.provisioned = false) : r.state = st := by
  simp only [autoscale_step] at h
  split at h
  · injection h with h'
    rw [← h']
  · split at h
    · split at h
      · exact absurd h (by simp)
      · split at h
        · exact absurd h (by simp)
        · injection h with h'
          rw [← h'] at hp
          exact absurd hp (by simp)
    · injection h with h'
      rw [← h']

theorem autoscale_step_cooldown_blocks (st : LoopState) (env : ScaleEnv)
    (r : StepResult) (h : autoscale_step st env = some r)
    (hcd : env.now - st.lastScaleTime < POLL_INTERVAL) :
    r.provisioned = false := by
  simp only [autoscale_step] at h
  split at h
  · injection h with h'
    rw [← h']
  · split at h
    · rename_i hguard
      exact absurd hguard.2 (not_le.mpr hcd)
    · injection h with h'
      rw [← h']

/-! ## Claim theorems -/

/-- C2: on any poll tick where the registry size is at or above
`MAX_INSTANCES`, the loop performs zero provisioning calls and skips
evaluation entirely — no metric is fetched for any instance, no breach
is recorded, and the loop state is unchanged — regardless of measured
utilization. -/
theorem C2_cap_skips_evaluation (st : LoopState) (env : ScaleEnv)
    (hcap : (read_instance_registry st.file).length ≥ MAX_INSTANCES) :
    autoscale_step st env = some ⟨st, [], false, false⟩ :=
  autoscale_step_cap st env hcap

theorem C2_cap_skips_evaluation_witness :
    autoscale_step ⟨0, some fileFour⟩ envBusyOk =
      some ⟨⟨0, some fileFour⟩, [], false, false⟩ :=
  C2_cap_skips_evaluation ⟨0, some fileFour⟩ envBusyOk (by decide)

/-- C1: cooldown invariant.  If an iteration provisions, the last-scale
timestamp is reset to the post-provisioning clock reading; a second
iteration whose cooldown check happens less than `POLL_INTERVAL` after
that reset never provisions, whatever breach it detects; and an
iteration that does not provision leaves the timestamp untouched, so it
persists across iterations. -/
theorem C1_cooldown_invariant (st : LoopState) (e1 e2 : ScaleEnv)
    (r1 r2 : StepResult)
    (h1 : autoscale_step st e1 = some r1) (hp : r1.provisioned = true)
    (h2 : autoscale_step r1.state e2 = some r2)
    (hcd : e2.now - e1.now2 < POLL_INTERVAL) :
    r2.provisioned = false ∧ r1.state.lastScaleTime = e1.now2 ∧
    (∀ (st' : LoopState) (e' : ScaleEnv) (r' : StepResult),
      autoscale_step st' e' = some r' → r'.provisioned = false →
      r'.state.lastScaleTime = st'.lastScaleTime) := by
  have hreset : r1.state.lastScaleTime = e1.now2 :=
    autoscale_step_provisioned_time st e1 r1 h1 hp
  refine ⟨?_, hreset, ?_⟩
  · exact autoscale_step_cooldown_blocks r1.state e2 r2 h2 (by rw [hreset]; exact hcd)
  · intro st' e' r' h' hp'
    rw [autoscale_step_stable_state st' e' r' h' hp']

theorem C1_cooldown_invariant_witness :
    stepBusyLater.provisioned = false ∧ stepBusy.state.lastScaleTime = 100 :=
  have h := C1_cooldown_invariant stOne envBusyOk envBusyLater stepBusy
    stepBusyLater (by decide) (by decide) (by decide) (by decide)
  ⟨h.1, h.2.1⟩

/-- C8: within one poll cycle, instances are evaluated in registry order
and the scan stops at the first instance whose utilization strictly
exceeds the threshold: the fetched indices are exactly `0..j`, breach is
set at instance `j`, and no later instance's metric is fetched. -/
theorem C8_first_breach_stops_scan (st : LoopState) (env : ScaleEnv) (j : Nat)
    (hcap : (read_instance_registry st.file).length < MAX_INSTANCES)
    (hj : j < (read_instance_registry st.file).length)
    (hbefore : ∀ i, i < j → ¬ get_remote_cpu_percent (env.fetchOut i) > CPU_THRESHOLD)
    (hbreach : get_remote_cpu_percent (env.fetchOut j) > CPU_THRESHOLD) :
    scanLoop (fun i => get_remote_cpu_percent (env.fetchOut i)) CPU_THRESHOLD
      (read_instance_registry st.file) 0 = (true, List.range (j + 1)) ∧
    ∀ r : StepResult, autoscale_step st env = some r →
      r.breach = true ∧ r.fetched = List.range (j + 1) := by
  have hscan := scanLoop_first_breach
    (fun i => get_remote_cpu_percent (env.fetchOut i)) CPU_THRESHOLD
    (read_instance_registry st.file) 0 j hj
    (fun i hi => by simpa using hbefore i hi) (by simpa using hbreach)
  have hmap : (List.range (j + 1)).map (fun i => 0 + i) = List.range (j + 1) := by
    simp
  rw [hmap] at hscan
  refine ⟨hscan, ?_⟩
  intro r hr
  simp only [autoscale_step] at hr
  rw [if_neg (by omega : ¬ (read_instance_registry st.file).length ≥ MAX_INSTANCES),
    hscan] at hr
  split at hr
  · split at hr
    · exact absurd hr (by simp)
    · split at hr
      · exact absurd hr (by simp)
      · injection hr with h'
        rw [← h']
        exact ⟨rfl, rfl⟩
  · injection hr with h'
    rw [← h']
    exact ⟨rfl, rfl⟩

theorem C8_first_breach_stops_scan_witness :
    scanLoop (fun i => get_remote_cpu_percent (envSecondBusy.fetchOut i)) CPU_THRESHOLD
      (read_instance_registry (some fileTwo)) 0 = (true, List.range 2) ∧
    ∀ r : StepResult, autoscale_step ⟨0, some fileTwo⟩ envSecondBusy = some r →
      r.breach = true ∧ r.fetched = List.range 2 :=
  C8_first_breach_stops_scan ⟨0, some fileTwo⟩ envSecondBusy 1
    (by decide) (by decide) (by decide) (by decide)

/-- C3 counterexample: with one breaching instance, an expired cooldown
and a provisioner that raises, the exception escapes
`autoscale_controller`: the iteration has no normal result and the loop
terminates instead of retrying on the next interval. -/
theorem C3_counterexample :
    autoscale_step stOne envProvisionRaise = none ∧
    scaleRun (fun _ => envProvisionRaise) 1 stOne = none := by
  decide

/-- C3 as amended: in obj5.4.py any exception in the cycle body is
caught and the loop sleeps and retries; in scale.py a per-instance fetch
failure is swallowed (the cycle completes with no action), but a
provisioning or registry-append exception during a triggered scaling
action propagates out of the loop and terminates it. -/
theorem C3_amended_error_policy :
    (∀ env : MonEnv, monitor_body env = none → monitor_step env = ([], false)) ∧
    (∀ (st : LoopState) (env : ScaleEnv),
      (∀ i, env.fetchOut i = FetchOutcome.sshError) →
      ∃ r : StepResult, autoscale_step st env = some r ∧
        r.provisioned = false ∧ r.state = st) ∧
    (∀ (st : LoopState) (env : ScaleEnv),
      (read_instance_registry st.file).length < MAX_INSTANCES →
      (scanLoop (fun i => get_remote_cpu_percent (env.fetchOut i)) CPU_THRESHOLD
        (read_instance_registry st.file) 0).1 = true →
      env.now - st.lastScaleTime ≥ POLL_INTERVAL →
      (env.provision ((read_instance_registry st.file).length + 1) = none ∨
        env.appendFails = true) →
      autoscale_step st env = none) := by
  refine ⟨?_, ?_, ?_⟩
  · intro env h
    simp [monitor_step, h]
  · intro st env hssh
    have hcpu : ∀ i, ¬ get_remote_cpu_percent (env.fetchOut i) > CPU_THRESHOLD := by
      intro i
      rw [hssh i]
      norm_num [get_remote_cpu_percent, CPU_THRESHOLD]
    by_cases hcap : (read_instance_registry st.file).length ≥ MAX_INSTANCES
    · exact ⟨⟨st, [], false, false⟩, autoscale_step_cap st env hcap, rfl, rfl⟩
    · have hscan : (scanLoop (fun i => get_remote_cpu_percent (env.fetchOut i))
          CPU_THRESHOLD (read_instance_registry st.file) 0).1 = false :=
        scanLoop_no_breach _ _ hcpu _ 0
      refine ⟨⟨st, (scanLoop (fun i => get_remote_cpu_percent (env.fetchOut i))
        CPU_THRESHOLD (read_instance_registry st.file) 0).2, false, false⟩, ?_, rfl, rfl⟩
      simp only [autoscale_step, if_neg hcap]
      rw [if_neg (by simp [hscan])]
      rw [hscan]
  · intro st env hcap hbr hcd hfail
    simp only [autoscale_step,
      if_neg (by omega : ¬ (read_instance_registry st.file).length ≥ MAX_INSTANCES)]
    rw [if_pos ⟨hbr, hcd⟩]
    rcases hfail with h | h
    · rw [h]
    · cases hp : env.provision ((read_instance_registry st.file).length + 1) with
      | none => rfl
      | some p =>
        cases p
        simp [h]

theorem C3_amended_error_policy_witness : monitor_step monEnvRaise = ([], false) :=
  C3_amended_error_policy.1 monEnvRaise (by decide)

/-- C4 counterexample: a transport or authentication failure of the
CloudWatch call makes `get_cpu_util` raise to its caller (`none`)
instead of returning the deterministic `0.0`. -/
theorem C4_counterexample :
    get_cpu_util CwResult.raised = none ∧
    get_cpu_util CwResult.raised ≠ some 0 := by
  decide

/-- C4 as amended: every scale.py fetch failure (SSH exception or parse
failure) returns exactly `0.0`, which never exceeds the threshold of 10;
`get_cpu_util` returns `0.0` for an empty monitoring-query result, and
`0.0` never reaches a positive threshold, but a transport or
authentication failure propagates to the caller instead of yielding
`0.0`. -/
theorem C4_amended_fail_open :
    (get_remote_cpu_percent FetchOutcome.sshError = 0 ∧
      ¬ get_remote_cpu_percent FetchOutcome.sshError > CPU_THRESHOLD) ∧
    (∀ s : Chars, searchIdle s = none →
      get_remote_cpu_percent (FetchOutcome.output s) = 0 ∧
      ¬ get_remote_cpu_percent (FetchOutcome.output s) > CPU_THRESHOLD) ∧
    (get_cpu_util (CwResult.ok []) = some 0 ∧
      ∀ thr : ℚ, 0 < thr → ¬ (0 : ℚ) ≥ thr) ∧
    get_cpu_util CwResult.raised = none := by
  refine ⟨⟨rfl, by norm_num [get_remote_cpu_percent, CPU_THRESHOLD]⟩, ?_, ⟨rfl, ?_⟩, rfl⟩
  · intro s hs
    constructor
    · simp [get_remote_cpu_percent, hs]
    · simp [get_remote_cpu_percent, hs]
      norm_num [CPU_THRESHOLD]
  · intro thr hthr
    exact not_le.mpr hthr

theorem C4_amended_fail_open_witness :
    (get_remote_cpu_percent (FetchOutcome.output "no such pattern".data) = 0 ∧
      ¬ get_remote_cpu_percent (FetchOutcome.output "no such pattern".data) >
        CPU_THRESHOLD) ∧
    ¬ (0 : ℚ) ≥ 10 :=
  ⟨C4_amended_fail_open.2.1 ("no such pattern".data) (by decide),
    C4_amended_fail_open.2.2.1.2 10 (by norm_num)⟩

/-- C6 counterexample: a successful fetch whose output reads
`"150% idle"` matches the pattern and yields `100 - 150 = -50`, outside
the contract range 0.0 to 100.0. -/
theorem C6_counterexample :
    get_remote_cpu_percent (FetchOutcome.output "150% idle".data) = -50 ∧
    ¬ (0 ≤ get_remote_cpu_percent (FetchOutcome.output "150% idle".data) ∧
      get_remote_cpu_percent (FetchOutcome.output "150% idle".data) ≤ 100) := by
  decide

/-- C6 as amended: a successful fetch (pattern found) returns
`100 - idle` where `idle` is the captured non-negative integer, so the
value is always at most 100, and it lies within 0.0 to 100.0 exactly
when the reported idle percentage is itself at most 100. -/
theorem C6_amended_range (s d : Chars) (h : searchIdle s = some d) :
    get_remote_cpu_percent (FetchOutcome.output s) = 100 - (digitsVal d : ℚ) ∧
    get_remote_cpu_percent (FetchOutcome.output s) ≤ 100 ∧
    ((digitsVal d : ℚ) ≤ 100 →
      0 ≤ get_remote_cpu_percent (FetchOutcome.output s)) := by
  have hv : get_remote_cpu_percent (FetchOutcome.output s) =
      100 - (digitsVal d : ℚ) := by
    simp [get_remote_cpu_percent, h]
  refine ⟨hv, ?_, ?_⟩
  · rw [hv]
    have : (0 : ℚ) ≤ (digitsVal d : ℚ) := Nat.cast_nonneg _
    linarith
  · intro hle
    rw [hv]
    linarith

theorem C6_amended_range_witness :
    get_remote_cpu_percent (FetchOutcome.output "CPU: 37% idle".data) =
      100 - (digitsVal "37".data : ℚ) ∧
    get_remote_cpu_percent (FetchOutcome.output "CPU: 37% idle".data) ≤ 100 ∧
    ((digitsVal "37".data : ℚ) ≤ 100 →
      0 ≤ get_remote_cpu_percent (FetchOutcome.output "CPU: 37% idle".data)) :=
  C6_amended_range ("CPU: 37% idle".data) ("37".data) (by decide)

/-- When the provisioner never raises and the registry append never
fails, one autoscale iteration always completes normally. -/
theorem autoscale_step_total (st : LoopState) (env : ScaleEnv)
    (hprov : ∀ n, (env.provision n).isSome = true)
    (happ : env.appendFails = false) :
    (autoscale_step st env).isSome = true := by
  simp only [autoscale_step]
  split
  · rfl
  · split
    · cases hp : env.provision ((read_instance_registry st.file).length + 1) with
      | none =>
        have := hprov ((read_instance_registry st.file).length + 1)
        rw [hp] at this
        exact absurd this (by simp)
      | some p =>
        cases p with
        | mk name ip => simp [hp, happ]
    · rfl

/-- The autoscale loop never stops on its own: under benign
environments it runs any number of iterations. -/
theorem scaleRun_total (envs : Nat → ScaleEnv) (st : LoopState) (k : Nat)
    (hprov : ∀ m n, ((envs m).provision n).isSome = true)
    (happ : ∀ m, (envs m).appendFails = false) :
    (scaleRun envs k st).isSome = true := by
  induction k generalizing envs st with
  | zero => rfl
  | succ k ih =>
    simp only [scaleRun]
    cases hs : autoscale_step st (envs 0) with
    | none =>
      have := autoscale_step_total st (envs 0) (hprov 0) (happ 0)
      rw [hs] at this
      exact absurd this (by simp)
    | some r =>
      exact ih (fun i => envs (i + 1)) r.state
        (fun m n => hprov (m + 1) n) (fun m => happ (m + 1))

/-- The monitoring scan reports a return from `main` only when some
scanned instance's fetched utilization reached the threshold. -/
theorem scanMon_exit (env : MonEnv) (all : List Nat) :
    ∀ (l : List Nat) (evs : List MEv), scanMon env all l = some (evs, true) →
      ∃ i ∈ l, ∃ v : ℚ,
        get_cpu_util (env.cwResp i) = some v ∧ v ≥ env.threshold := by
  intro l
  induction l with
  | nil =>
    intro evs h
    simp [scanMon] at h
  | cons i rest ih =>
    intro evs h
    simp only [scanMon] at h
    cases hc : get_cpu_util (env.cwResp i) with
    | none =>
      simp [hc] at h
    | some cpu =>
      simp only [hc] at h
      by_cases hbr : cpu ≥ env.threshold
      · exact ⟨i, List.mem_cons_self i rest, cpu, hc, hbr⟩
      · rw [if_neg hbr] at h
        cases hs : scanMon env all rest with
        | none =>
          rw [hs] at h
          exact absurd h (by simp)
        | some r =>
          rw [hs] at h
          cases r with
          | mk evs' ex =>
            simp only [Option.map_some', Option.some.injEq, Prod.mk.injEq] at h
            obtain ⟨-, hx⟩ := h
            rw [hx] at hs
            obtain ⟨i', hi', v, hv, hvt⟩ := ih evs' hs
            exact ⟨i', List.mem_cons_of_mem i hi', v, hv, hvt⟩

/-- The monitoring loop returns from `main` only after a breach: an
exit implies one of the two monitored instances reported a utilization
at or above the threshold. -/
theorem monitor_exit_only_on_breach (env : MonEnv)
    (h : (monitor_step env).2 = true) :
    ∃ i ∈ env.running.take 2, ∃ v : ℚ,
      get_cpu_util (env.cwResp i) = some v ∧ v ≥ env.threshold := by
  simp only [monitor_step, monitor_body] at h
  split at h
  · simp at h
  · cases hs : scanMon env (env.running.take 2) (env.running.take 2) with
    | none =>
      rw [hs] at h
      simp at h
    | some r =>
      rw [hs] at h
      simp only [Option.getD_some] at h
      cases r with
      | mk evs ex =>
        rw [(by exact h : ex = true)] at hs
        exact scanMon_exit env (env.running.take 2) (env.running.take 2) evs hs

/-- C7 counterexample: the monitoring loop of obj5.4.py does have a
terminal state.  Under a reachable environment (second instance at 50
percent, threshold 10) the cycle ends with `main` returning — the
`return` after a successful remediation — rather than sleeping and
repeating. -/
theorem C7_counterexample : (monitor_step monEnvBreach).2 = true := by
  decide

/-- C7 as amended: the scale.py loop has no terminal state — as long as
no provisioning or append exception escapes, it completes any number of
iterations; the obj5.4.py loop repeats on every outcome except one: it
returns from `main` only after an iteration whose fetched utilization
reached the threshold (the react-once remediation). -/
theorem C7_amended_loop_structure :
    (∀ (envs : Nat → ScaleEnv) (st : LoopState) (k : Nat),
      (∀ m n, ((envs m).provision n).isSome = true) →
      (∀ m, (envs m).appendFails = false) →
      (scaleRun envs k st).isSome = true) ∧
    (∀ env : MonEnv, (monitor_step env).2 = true →
      ∃ i ∈ env.running.take 2, ∃ v : ℚ,
        get_cpu_util (env.cwResp i) = some v ∧ v ≥ env.threshold) :=
  ⟨fun envs st k hprov happ => scaleRun_total envs st k hprov happ,
    fun env h => monitor_exit_only_on_breach env h⟩

theorem C7_amended_loop_structure_witness :
    (scaleRun (fun _ => envBusyOk) 3 stOne).isSome = true :=
  C7_amended_loop_structure.1 (fun _ => envBusyOk) stOne 3
    (fun _ _ => rfl) (fun _ => rfl)

/-- C10: whenever one of the two monitored running instances reports a
utilization at or above the threshold, the cycle stops both instances
(whatever the other instance reported), creates exactly two replacements
in a single call, and only then sends the notification, after which
`main` returns. -/
theorem C10_remediation (env : MonEnv) (a b : Nat) (va vb : ℚ)
    (hrun : env.running.take 2 = [a, b])
    (ha : get_cpu_util (env.cwResp a) = some va)
    (hb : get_cpu_util (env.cwResp b) = some vb)
    (hstop : env.stopOk = true) (hcreate : env.createOk = true)
    (hnotify : env.notifyOk = true)
    (hbr : va ≥ env.threshold ∨ vb ≥ env.threshold) :
    monitor_body env =
      some ((if va ≥ env.threshold then [MEv.fetch a]
          else [MEv.fetch a, MEv.fetch b]) ++
        [MEv.stop a, MEv.stop b, MEv.create 2, MEv.notify], true) := by
  by_cases h1 : va ≥ env.threshold
  · simp [monitor_body, hrun, scanMon, ha, hstop, hcreate, hnotify, h1]
  · have h2 : vb ≥ env.threshold := hbr.resolve_left h1
    simp [monitor_body, hrun, scanMon, ha, hb, hstop, hcreate, hnotify, h1, h2]

theorem C10_remediation_witness :
    monitor_body monEnvBreach =
      some ((if (3 : ℚ) ≥ monEnvBreach.threshold then [MEv.fetch 7]
          else [MEv.fetch 7, MEv.fetch 9]) ++
        [MEv.stop 7, MEv.stop 9, MEv.create 2, MEv.notify], true) :=
  C10_remediation monEnvBreach 7 9 3 50 (by decide) (by decide) (by decide)
    rfl rfl rfl (Or.inr (by decide))

/-! ## Registry structure lemmas -/

theorem splitOnChar_cons_self (c : Char) (t : Chars) :
    splitOnChar c (c :: t) = [] :: splitOnChar c t := by
  simp [splitOnChar]

theorem stripCR_concat (l : Chars) : stripCR (l ++ ['\r']) = l := by
  simp [stripCR, List.getLast?_concat, List.dropLast_concat]

theorem not_mem_rowBody {c : Char} {n i : Chars} (hc : c ≠ ',')
    (hu : c ∉ SSH_USER) (hp : c ∉ SSH_PASS) (hn : c ∉ n) (hi : c ∉ i) :
    c ∉ rowBody n i := by
  simp only [rowBody, List.mem_append, List.mem_cons, not_or]
  exact ⟨hn, hc, hi, hc, hu, hc, hp⟩

theorem nl_not_mem_rowBody {n i : Chars} (hn : CleanField n) (hi : CleanField i) :
    '\n' ∉ rowBody n i :=
  not_mem_rowBody (by decide) (by decide) (by decide) hn.1 hi.1

theorem splitOnChar_rowBody (n i : Chars) (hn : CleanField n) (hi : CleanField i) :
    splitOnChar ',' (rowBody n i) = [n, i, SSH_USER, SSH_PASS] := by
  unfold rowBody
  rw [splitOnChar_append_sep ',' n _ hn.2.2.1,
    splitOnChar_append_sep ',' i _ hi.2.2.1,
    splitOnChar_append_sep ',' SSH_USER _ (by decide),
    splitOnChar_no_sep ',' SSH_PASS (by decide)]

theorem rowBody_ne_nil (n i : Chars) : rowBody n i ≠ [] := by
  cases n <;> simp [rowBody]

theorem rowBody_ne_headerBody (n i : Chars) (hn : CleanField n) (hi : CleanField i) :
    rowBody n i ≠ headerBody := by
  intro h
  have hsp := congrArg (splitOnChar ',') h
  rw [splitOnChar_rowBody n i hn hi] at hsp
  have hh : splitOnChar ',' headerBody =
      ["name".data, "ip".data, "username".data, "password".data] := by decide
  rw [hh] at hsp
  simp only [List.cons.injEq] at hsp
  exact absurd hsp.2.2.1 (by decide)

theorem append_some_nonempty (f : Chars) (hf : 0 < f.length) (n i : Chars) :
    append_instance_registry (some f) n i = f ++ '\n' :: rowChars n i := by
  simp [append_instance_registry, hf, List.append_assoc]

theorem append_none_eq (n i : Chars) :
    append_instance_registry none n i = headerChars ++ rowChars n i := by
  simp [append_instance_registry]

theorem appendRegistryAll_some (ps : List (Chars × Chars)) :
    ∀ f : Chars, 0 < f.length →
      appendRegistryAll ps (some f) = some (f ++ regRowsTail ps) := by
  induction ps with
  | nil =>
    intro f hf
    simp [appendRegistryAll, regRowsTail]
  | cons p rest ih =>
    intro f hf
    show appendRegistryAll rest (some (append_instance_registry (some f) p.1 p.2)) = _
    rw [append_some_nonempty f hf, ih (f ++ '\n' :: rowChars p.1 p.2) (by simp)]
    simp [regRowsTail, List.append_assoc]

theorem appendRegistryAll_from_none (p : Chars × Chars) (ps : List (Chars × Chars)) :
    appendRegistryAll (p :: ps) none = some (regFile (p :: ps)) := by
  show appendRegistryAll ps (some (append_instance_registry none p.1 p.2)) = _
  rw [append_none_eq, appendRegistryAll_some ps (headerChars ++ rowChars p.1 p.2)
    (by simp [headerChars, headerBody])]
  simp [regFile, List.append_assoc]

theorem splitOnChar_regRowsTail (ps : List (Chars × Chars))
    (hclean : ∀ p ∈ ps, CleanField p.1 ∧ CleanField p.2) :
    splitOnChar '\n' (regRowsTail ps) = rawTail ps := by
  induction ps with
  | nil => rfl
  | cons p rest ih =>
    have hp := hclean p (List.mem_cons_self p rest)
    have hnl : '\n' ∉ rowBody p.1 p.2 ++ ['\r'] := by
      simp only [List.mem_append, List.mem_cons, not_or]
      exact ⟨nl_not_mem_rowBody hp.1 hp.2, by decide, by decide⟩
    have e : regRowsTail (p :: rest) =
        '\n' :: ((rowBody p.1 p.2 ++ ['\r']) ++ '\n' :: regRowsTail rest) := by
      simp [regRowsTail, rowChars, CRLF, List.append_assoc]
    rw [e, splitOnChar_cons_self, splitOnChar_append_sep _ _ _ hnl,
      ih (fun q hq => hclean q (List.mem_cons_of_mem p hq))]
    rfl

theorem splitOnChar_regFile (p : Chars × Chars) (ps : List (Chars × Chars))
    (hclean : ∀ q ∈ p :: ps, CleanField q.1 ∧ CleanField q.2) :
    splitOnChar '\n' (regFile (p :: ps)) =
      (headerBody ++ ['\r']) :: (rowBody p.1 p.2 ++ ['\r']) :: rawTail ps := by
  have hp := hclean p (List.mem_cons_self p ps)
  have hhdr : '\n' ∉ headerBody ++ ['\r'] := by decide
  have hrow : '\n' ∉ rowBody p.1 p.2 ++ ['\r'] := by
    simp only [List.mem_append, List.mem_cons, not_or]
    exact ⟨nl_not_mem_rowBody hp.1 hp.2, by decide, by decide⟩
  have e : regFile (p :: ps) =
      (headerBody ++ ['\r']) ++ '\n' ::
        ((rowBody p.1 p.2 ++ ['\r']) ++ '\n' :: regRowsTail ps) := by
    simp [regFile, headerChars, rowChars, CRLF, List.append_assoc]
  rw [e, splitOnChar_append_sep _ _ _ hhdr, splitOnChar_append_sep _ _ _ hrow,
    splitOnChar_regRowsTail ps (fun q hq => hclean q (List.mem_cons_of_mem p hq))]

theorem rawTail_ne_nil (ps : List (Chars × Chars)) : rawTail ps ≠ [] := by
  cases ps <;> simp [rawTail]

theorem rawTail_getLast (ps : List (Chars × Chars)) :
    (rawTail ps).getLast? = some [] := by
  induction ps with
  | nil => rfl
  | cons p rest ih =>
    have e : rawTail (p :: rest) =
        [[], rowBody p.1 p.2 ++ ['\r']] ++ rawTail rest := rfl
    rw [e, List.getLast?_append, ih]
    rfl

theorem rawTail_dropLast_strip (ps : List (Chars × Chars)) :
    ((rawTail ps).dropLast).map stripCR = regLinesTail ps := by
  induction ps with
  | nil => rfl
  | cons p rest ih =>
    have e : rawTail (p :: rest) =
        [[], rowBody p.1 p.2 ++ ['\r']] ++ rawTail rest := rfl
    rw [e, List.dropLast_append_of_ne_nil _ (rawTail_ne_nil rest)]
    simp only [List.map_append, List.map_cons, List.map_nil, ih]
    rw [stripCR_concat]
    rfl

theorem linesOf_regFile (p : Chars × Chars) (ps : List (Chars × Chars))
    (hclean : ∀ q ∈ p :: ps, CleanField q.1 ∧ CleanField q.2) :
    linesOf (regFile (p :: ps)) =
      headerBody :: rowBody p.1 p.2 :: regLinesTail ps := by
  unfold linesOf
  rw [splitOnChar_regFile p ps hclean]
  have e : (headerBody ++ ['\r']) :: (rowBody p.1 p.2 ++ ['\r']) :: rawTail ps =
      [headerBody ++ ['\r'], rowBody p.1 p.2 ++ ['\r']] ++ rawTail ps := rfl
  have hlast : ([headerBody ++ ['\r'], rowBody p.1 p.2 ++ ['\r']] ++
      rawTail ps).getLast? = some ([] : Chars) := by
    rw [List.getLast?_append, rawTail_getLast]
    rfl
  rw [e, if_pos hlast, List.dropLast_append_of_ne_nil _ (rawTail_ne_nil ps)]
  simp only [List.map_append, List.map_cons, List.map_nil]
  rw [stripCR_concat, stripCR_concat, rawTail_dropLast_strip]
  rfl

theorem filter_regLinesTail (ps : List (Chars × Chars)) :
    (regLinesTail ps).filter (fun l => !l.isEmpty) =
      ps.map (fun p => rowBody p.1 p.2) := by
  induction ps with
  | nil => rfl
  | cons p rest ih =>
    have hne : (rowBody p.1 p.2).isEmpty = false := by
      cases hr : rowBody p.1 p.2 with
      | nil => exact absurd hr (rowBody_ne_nil p.1 p.2)
      | cons a l => rfl
    simp only [regLinesTail, List.filter_cons, List.isEmpty_nil, Bool.not_true,
      hne, Bool.not_false, ih]
    rfl

theorem header_not_in_regLinesTail (ps : List (Chars × Chars))
    (hclean : ∀ q ∈ ps, CleanField q.1 ∧ CleanField q.2) :
    headerBody ∉ regLinesTail ps := by
  induction ps with
  | nil => simp [regLinesTail]
  | cons p rest ih =>
    have hp := hclean p (List.mem_cons_self p rest)
    simp only [regLinesTail, List.mem_cons, not_or]
    refine ⟨by decide, ?_, ih (fun q hq => hclean q (List.mem_cons_of_mem p hq))⟩
    exact fun h => rowBody_ne_headerBody p.1 p.2 hp.1 hp.2 h.symm

theorem read_regFile (p : Chars × Chars) (ps : List (Chars × Chars))
    (hclean : ∀ q ∈ p :: ps, CleanField q.1 ∧ CleanField q.2) :
    read_instance_registry (some (regFile (p :: ps))) =
      (p :: ps).map (fun q => [q.1, q.2, SSH_USER, SSH_PASS]) := by
  have hp := hclean p (List.mem_cons_self p ps)
  simp only [read_instance_registry]
  rw [linesOf_regFile p ps hclean]
  show ((rowBody p.1 p.2 :: regLinesTail ps).filter
    (fun l => !l.isEmpty)).map (splitOnChar ',') = _
  have hne : (rowBody p.1 p.2).isEmpty = false := by
    cases hr : rowBody p.1 p.2 with
    | nil => exact absurd hr (rowBody_ne_nil p.1 p.2)
    | cons a l => rfl
  simp only [List.filter_cons, hne, Bool.not_false, filter_regLinesTail]
  simp only [if_true, List.map_cons, List.map_map]
  rw [splitOnChar_rowBody p.1 p.2 hp.1 hp.2]
  refine congrArg _ (List.map_congr_left ?_)
  intro q hq
  have hcq := hclean q (List.mem_cons_of_mem p hq)
  simp only [Function.comp_apply]
  exact splitOnChar_rowBody q.1 q.2 hcq.1 hcq.2

theorem rowsChunk_ends (ps : List (Chars × Chars)) :
    ∀ p : Chars × Chars, ∃ g : Chars,
      rowChars p.1 p.2 ++ regRowsTail ps = g ++ ['\n'] := by
  induction ps with
  | nil =>
    intro p
    exact ⟨rowBody p.1 p.2 ++ ['\r'], by simp [rowChars, CRLF, regRowsTail]⟩
  | cons q rest ih =>
    intro p
    obtain ⟨g', hg⟩ := ih q
    refine ⟨rowChars p.1 p.2 ++ '\n' :: g', ?_⟩
    have e : regRowsTail (q :: rest) = '\n' :: (rowChars q.1 q.2 ++ regRowsTail rest) := rfl
    rw [e, hg]
    simp [List.append_assoc]

theorem regFile_ends (p : Chars × Chars) (ps : List (Chars × Chars)) :
    ∃ g : Chars, regFile (p :: ps) = g ++ ['\n'] := by
  obtain ⟨g, hg⟩ := rowsChunk_ends ps p
  refine ⟨headerChars ++ g, ?_⟩
  show headerChars ++ (rowChars p.1 p.2 ++ regRowsTail ps) = _
  rw [hg]
  simp [List.append_assoc]

/-- C5: starting from no existing store, after N ≥ 1 appends the file's
first line is the header row and the header occurs on no other line;
the non-blank lines after it are exactly the N data rows in append
order with the fixed column order (appends after the first are preceded
by the blank separator line the extra `"\n"` produces); the file is
newline-terminated; and a `load()` in the same process returns all N
appended rows, in order. -/
theorem C5_registry_structure (insts : List (Chars × Chars))
    (hne : insts ≠ [])
    (hclean : ∀ q ∈ insts, CleanField q.1 ∧ CleanField q.2) :
    ∃ f : Chars, appendRegistryAll insts none = some f ∧
      (linesOf f).head? = some headerBody ∧
      headerBody ∉ (linesOf f).tail ∧
      (linesOf f).tail.filter (fun l => !l.isEmpty) =
        insts.map (fun q => rowBody q.1 q.2) ∧
      read_instance_registry (some f) =
        insts.map (fun q => [q.1, q.2, SSH_USER, SSH_PASS]) ∧
      ∃ g : Chars, f = g ++ ['\n'] := by
  cases insts with
  | nil => exact absurd rfl hne
  | cons p ps =>
    have hp := hclean p (List.mem_cons_self p ps)
    have hps : ∀ q ∈ ps, CleanField q.1 ∧ CleanField q.2 :=
      fun q hq => hclean q (List.mem_cons_of_mem p hq)
    refine ⟨regFile (p :: ps), appendRegistryAll_from_none p ps,
      ?_, ?_, ?_, read_regFile p ps hclean, regFile_ends p ps⟩
    · rw [linesOf_regFile p ps hclean]
      rfl
    · rw [linesOf_regFile p ps hclean]
      simp only [List.tail_cons, List.mem_cons, not_or]
      exact ⟨fun h => rowBody_ne_headerBody p.1 p.2 hp.1 hp.2 h.symm,
        header_not_in_regLinesTail ps hps⟩
    · rw [linesOf_regFile p ps hclean]
      have hemp : (rowBody p.1 p.2).isEmpty = false := by
        cases hr : rowBody p.1 p.2 with
        | nil => exact absurd hr (rowBody_ne_nil p.1 p.2)
        | cons a l => rfl
      simp only [List.tail_cons, List.filter_cons, hemp, Bool.not_false, if_true,
        filter_regLinesTail]
      rfl

theorem C5_registry_structure_witness :
    ∃ f : Chars, appendRegistryAll instsTwo none = some f ∧
      (linesOf f).head? = some headerBody ∧
      headerBody ∉ (linesOf f).tail ∧
      (linesOf f).tail.filter (fun l => !l.isEmpty) =
        instsTwo.map (fun q => rowBody q.1 q.2) ∧
      read_instance_registry (some f) =
        instsTwo.map (fun q => [q.1, q.2, SSH_USER, SSH_PASS]) ∧
      ∃ g : Chars, f = g ++ ['\n'] :=
  C5_registry_structure instsTwo (by decide) (by decide)

/-- C9: when the registry file exists but is empty, the append probe
classifies it as existing, so the data row is written with no header
row; a subsequent load consumes that data row as the header and returns
a sequence without the appended instance (the empty sequence). -/
theorem C9_empty_file_append (n i : Chars) (hn : CleanField n) (hi : CleanField i) :
    append_instance_registry (some []) n i = rowChars n i ∧
    read_instance_registry (some (rowChars n i)) = [] := by
  constructor
  · simp [append_instance_registry]
  · have hnl : '\n' ∉ rowBody n i ++ ['\r'] := by
      simp only [List.mem_append, List.mem_cons, not_or]
      exact ⟨nl_not_mem_rowBody hn hi, by decide, by decide⟩
    have e : rowChars n i = (rowBody n i ++ ['\r']) ++ '\n' :: [] := by
      simp [rowChars, CRLF, List.append_assoc]
    have hsplit : splitOnChar '\n' (rowChars n i) =
        [rowBody n i ++ ['\r'], []] := by
      rw [e, splitOnChar_append_sep _ _ _ hnl]
      rfl
    have hl : ([rowBody n i ++ ['\r'], ([] : Chars)]).getLast? = some [] := by
      rfl
    have hlines : linesOf (rowChars n i) = [rowBody n i] := by
      unfold linesOf
      rw [hsplit, if_pos hl]
      show List.map stripCR [rowBody n i ++ ['\r']] = [rowBody n i]
      rw [List.map_cons, stripCR_concat]
      rfl
    simp only [read_instance_registry, hlines]
    rfl

theorem C9_empty_file_append_witness :
    append_instance_registry (some []) "auto_vm_9".data "10.0.0.9".data =
      rowChars "auto_vm_9".data "10.0.0.9".data ∧
    read_instance_registry
      (some (rowChars "auto_vm_9".data "10.0.0.9".data)) = [] :=
  C9_empty_file_append "auto_vm_9".data "10.0.0.9".data (by decide) (by decide)
